import Mathlib

/-!
Shallow embedding of the `acp` package (multi-resolution document protocol):
`src/acp/document.py`, `src/acp/generators.py`, `src/acp/levels.py`.

Python values flowing through the library are JSON-like: strings, ints,
floats, bools, None, lists and dicts.  Dicts are modelled as insertion-ordered
association lists (`JObj`), matching CPython dict semantics: assignment to an
existing key replaces the value in place, a new key is appended at the end.
Floats are modelled as a mantissa/decimal-places pair; no claim exercises
float arithmetic or float rendering.
-/

mutual
inductive JValue : Type where
  | str (s : String)
  | int (n : Int)
  | float (mant : Int) (dec : Nat)
  | bool (b : Bool)
  | null
  | arr (xs : JList)
  | obj (fs : JObj)
  deriving DecidableEq
inductive JList : Type where
  | nil
  | cons (hd : JValue) (tl : JList)
  deriving DecidableEq
inductive JObj : Type where
  | nil
  | cons (k : String) (v : JValue) (tl : JObj)
  deriving DecidableEq
end

/-- Dict lookup (`d[k]` / `k in d`): first binding of the key wins. -/
def JObj.lookup : JObj → String → Option JValue
  | .nil, _ => none
  | .cons k v tl, key => if k = key then some v else tl.lookup key

/-- Dict membership test (`key in d`). -/
def JObj.hasKey (fs : JObj) (key : String) : Bool := (fs.lookup key).isSome

/-- Dict assignment (`d[k] = v`): replace in place if the key exists,
append otherwise (CPython insertion-order semantics). -/
def JObj.dinsert : JObj → String → JValue → JObj
  | .nil, key, v => .cons key v .nil
  | .cons k w tl, key, v =>
    if k = key then .cons k v tl else .cons k w (tl.dinsert key v)

/-- Number of entries (`len(d)`). -/
def JObj.length : JObj → Nat
  | .nil => 0
  | .cons _ _ tl => tl.length + 1

def JObj.isEmpty : JObj → Bool
  | .nil => true
  | .cons _ _ _ => false

def JList.length : JList → Nat
  | .nil => 0
  | .cons _ tl => tl.length + 1

/-- The check `isinstance(x, (str, int, float))` from `_simplify_value`.
CPython `bool` is a subclass of `int`, so bools pass the check. -/
def isScalar : JValue → Bool
  | .str _ => true
  | .int _ => true
  | .float _ _ => true
  | .bool _ => true
  | _ => false

/-- The check `all(isinstance(x, (str, int, float)) for x in value)`. -/
def JList.allScalar : JList → Bool
  | .nil => true
  | .cons v tl => isScalar v && tl.allScalar

/-- Python truthiness (`if flat[field]:`): empty string, zero, False, None,
empty list and empty dict are falsy, everything else truthy. -/
def truthy : JValue → Bool
  | .str s => !(s = "")
  | .int n => !(n = 0)
  | .float m _ => !(m = 0)
  | .bool b => b
  | .null => false
  | .arr xs => match xs with | .nil => false | _ => true
  | .obj fs => !fs.isEmpty

/-! ### String utilities

`String.replace`, `String.splitOn` and `String.contains` from core Lean do not
reduce inside the kernel, so the Python string primitives used by the code are
re-implemented over the character list `String.data`. -/

/-- Membership of a character in a string (Python `c in s` / `"." in field`). -/
def containsChar (s : String) (c : Char) : Bool := s.data.contains c

/-- One step of `str.replace`: scans left to right, replacing leftmost
non-overlapping occurrences.  The fuel starts at the length of the subject
string; every step consumes at least one character, so it never runs out. -/
def strReplaceGo : Nat → List Char → List Char → List Char → List Char
  | 0, s, _, _ => s
  | _, [], _, _ => []
  | fuel + 1, c :: rest, pat, rep =>
    if pat.isPrefixOf (c :: rest) then
      rep ++ strReplaceGo fuel (List.drop (pat.length - 1) rest) pat rep
    else
      c :: strReplaceGo fuel rest pat rep

/-- Python `s.replace(pat, rep)` for a non-empty pattern. -/
def strReplace (s pat rep : String) : String :=
  String.mk (strReplaceGo s.data.length s.data pat.data rep.data)

/-- Python `s.split(sep)` for a single-character separator. -/
def splitCharGo : List Char → Char → List Char → List String
  | [], _, cur => [String.mk cur]
  | c :: rest, sep, cur =>
    if c = sep then String.mk cur :: splitCharGo rest sep []
    else splitCharGo rest sep (cur ++ [c])

def splitChar (s : String) (sep : Char) : List String := splitCharGo s.data sep []

/-- Python `sep.join(parts)`. -/
def joinSep (sep : String) : List String → String
  | [] => ""
  | [s] => s
  | s :: rest => s ++ sep ++ joinSep sep rest

def hexDigits (n : Nat) (width : Nat) : List Char :=
  (List.range width).reverse.map (fun i => Nat.digitChar (n / 16 ^ i % 16))

/-- Python `repr` of a string: prefers single quotes, switches to double quotes
when the text holds a single quote but no double quote; escapes the backslash,
the chosen quote and control characters.  (Unprintable non-ASCII escaping is
approximated; no claim exercises it.) -/
def pyStrRepr (s : String) : String :=
  let q : Char :=
    if s.data.contains '\'' && !(s.data.contains '"') then '"' else '\''
  let esc := s.data.foldl (fun acc c =>
    if c = '\\' || c = q then acc ++ ['\\', c]
    else if c = '\n' then acc ++ ['\\', 'n']
    else if c = '\r' then acc ++ ['\\', 'r']
    else if c = '\t' then acc ++ ['\\', 't']
    else if c.toNat < 0x20 || c.toNat = 0x7f then acc ++ ('\\' :: 'x' :: hexDigits c.toNat 2)
    else acc ++ [c]) []
  String.mk (q :: esc ++ [q])

/-- Python `repr` of a float given as mantissa and decimal places.  Only the
shape matters: no claim evaluates float rendering. -/
def pyFloatRepr (m : Int) (e : Nat) : String :=
  let sign := if m < 0 then "-" else ""
  let ds := toString m.natAbs
  if e = 0 then sign ++ ds ++ ".0"
  else
    let ds := if ds.length ≤ e then String.mk (List.replicate (e + 1 - ds.length) '0') ++ ds else ds
    sign ++ String.mk (ds.data.take (ds.data.length - e)) ++ "." ++ String.mk (ds.data.drop (ds.data.length - e))

mutual
/-- Python `repr(x)` for JSON-like values (also `str(x)` for non-strings). -/
def pyRepr : JValue → String
  | .str s => pyStrRepr s
  | .int n => toString n
  | .float m e => pyFloatRepr m e
  | .bool b => cond b "True" "False"
  | .null => "None"
  | .arr xs => "[" ++ pyReprList xs ++ "]"
  | .obj fs => "\x7b" ++ pyReprObj fs ++ "\x7d"
def pyReprList : JList → String
  | .nil => ""
  | .cons v .nil => pyRepr v
  | .cons v tl => pyRepr v ++ ", " ++ pyReprList tl
def pyReprObj : JObj → String
  | .nil => ""
  | .cons k v .nil => pyStrRepr k ++ ": " ++ pyRepr v
  | .cons k v tl => pyStrRepr k ++ ": " ++ pyRepr v ++ ", " ++ pyReprObj tl
end

/-- Python `str(x)`: identity on strings, `repr` otherwise. -/
def pyStr : JValue → String
  | .str s => s
  | v => pyRepr v

/-- JSON string escaping as in `json.dumps` with its defaults
(`ensure_ascii=True`): backslash, quote, the short control escapes, and
`uXXXX` escapes (with surrogate pairs beyond the BMP). -/
def jsonEscapeChar (c : Char) : List Char :=
  if c = '"' then ['\\', '"']
  else if c = '\\' then ['\\', '\\']
  else if c = '\n' then ['\\', 'n']
  else if c = '\t' then ['\\', 't']
  else if c = '\r' then ['\\', 'r']
  else if c.toNat = 0x08 then ['\\', 'b']
  else if c.toNat = 0x0c then ['\\', 'f']
  else if c.toNat < 0x20 then '\\' :: 'u' :: hexDigits c.toNat 4
  else if c.toNat < 0x7f then [c]
  else if c.toNat ≤ 0xffff then '\\' :: 'u' :: hexDigits c.toNat 4
  else
    let u := c.toNat - 0x10000
    ('\\' :: 'u' :: hexDigits (0xd800 + u / 0x400) 4) ++ ('\\' :: 'u' :: hexDigits (0xdc00 + u % 0x400) 4)

def jsonQuote (s : String) : String :=
  "\"" ++ String.mk (s.data.foldl (fun acc c => acc ++ jsonEscapeChar c) []) ++ "\""

mutual
/-- `json.dumps(x)` with default separators. -/
def jsonDumps : JValue → String
  | .str s => jsonQuote s
  | .int n => toString n
  | .float m e => pyFloatRepr m e
  | .bool b => cond b "true" "false"
  | .null => "null"
  | .arr xs => "[" ++ jsonDumpsList xs ++ "]"
  | .obj fs => "\x7b" ++ jsonDumpsObj fs ++ "\x7d"
def jsonDumpsList : JList → String
  | .nil => ""
  | .cons v .nil => jsonDumps v
  | .cons v tl => jsonDumps v ++ ", " ++ jsonDumpsList tl
def jsonDumpsObj : JObj → String
  | .nil => ""
  | .cons k v .nil => jsonQuote k ++ ": " ++ jsonDumps v
  | .cons k v tl => jsonQuote k ++ ": " ++ jsonDumps v ++ ", " ++ jsonDumpsObj tl
end

/-! ### Token estimator (`document.py`, `_count_tokens`, fallback branch)

The primary strategy (tiktoken) is environment-dependent; the claims are about
the always-available fallback:
`special = sum(1 for c in text if c in '{}[]():,"\'')`,
`return len(text) // 4 + special // 2`. -/

def structuralPunct : List Char :=
  ['{', '}', '[', ']', '(', ')', ':', ',', '"', '\'']

def countTokens (text : String) : Nat :=
  text.length / 4 + text.data.countP (fun c => structuralPunct.contains c) / 2

/-! ### Schema-based generator (`generators.py`, `SchemaBasedGenerator`)

The priority "sets" are Python `set` literals; the code only ever tests
membership in them except for the generic branch of `_auto_summary`, which
iterates `HIGH_PRIORITY_FIELDS` in unspecified set order (flagged as a latent
nondeterminism in the design notes).  They are modelled as lists in source
literal order. -/

namespace SchemaBasedGenerator

def HIGH_PRIORITY_FIELDS : List String :=
  ["id", "name", "title", "status", "type", "role",
   "email", "category", "price", "total", "state"]

def MEDIUM_PRIORITY_FIELDS : List String :=
  ["description", "summary", "created_at", "updated_at",
   "author", "owner", "user_id", "department", "company",
   "rating", "quantity", "amount", "currency"]

def LOW_PRIORITY_FIELDS : List String :=
  ["metadata", "meta", "preferences", "settings", "config",
   "history", "logs", "audit", "internal", "cache",
   "created_by", "modified_by", "version", "revision"]

def ENTITY_KEY_FIELDS : List (String × List String) :=
  [("user", ["name", "role", "department", "status", "email"]),
   ("product", ["name", "category", "price", "in_stock", "rating"]),
   ("order", ["id", "status", "total", "user_id", "payment_status"]),
   ("article", ["title", "author", "topic", "status", "word_count"]),
   ("document", ["title", "type", "author", "status"]),
   ("transaction", ["id", "type", "amount", "status", "timestamp"])]

/-- Assignment sequence performed by `_flatten_data(data, prefix)`, in
execution order.  The Python code accumulates into a dict (`result[k] = v` and
`result.update(sub)`); applying these assignments left to right with dict
semantics yields the same dict, since `update` inserts the sub-dict's items in
their first-assignment order with their final values. -/
def flattenOps : JObj → String → List (String × JValue)
  | .nil, _ => []
  | .cons k v tl, pfx =>
    let fullKey := if pfx = "" then k else pfx ++ "_" ++ k
    (match v with
     | .obj fs => flattenOps fs fullKey
     | w => (fullKey, w) :: (if pfx = "" then [] else [(k, w)]))
    ++ flattenOps tl pfx

/-- `_flatten_data(data)`: nested keys are hoisted as `parent_key` compound
names and, for nested values, also under their bare key. -/
def flattenData (data : JObj) : JObj :=
  (flattenOps data "").foldl (fun acc kv => acc.dinsert kv.1 kv.2) JObj.nil

/-! #### `_apply_template` and `str.format`

`template.format(**flat)` is modelled for the simple `\x7bname\x7d` placeholder
shape this library uses, as a one-character-at-a-time scanner.  Doubled braces
are literal braces; a lone brace is an uncaught error; a placeholder name that
is empty, all digits (a positional argument reference), or holds
attribute/index/conversion/format-spec syntax is treated as outside the
modelled fragment and mapped to the uncaught-error result.  `PyErr.keyError`
stands for `KeyError` (the only exception `_apply_template` catches);
`PyErr.valueError` stands for any other uncaught exception. -/

inductive PyErr : Type where
  | keyError
  | valueError
  deriving DecidableEq

inductive FmtMode : Type where
  | lit
  | openB
  | closeB
  | name (nm : List Char)
  deriving DecidableEq

def badNameChar (c : Char) : Bool :=
  c == '{' || c == '[' || c == ']' || c == '.' || c == '!' || c == ':'

def fmtRun : List Char → FmtMode → JObj → String → Except PyErr String
  | [], .lit, _, acc => .ok acc
  | [], .openB, _, _ => .error .valueError
  | [], .closeB, _, _ => .error .valueError
  | [], .name _, _, _ => .error .valueError
  | c :: rest, .lit, flat, acc =>
    if c = '{' then fmtRun rest .openB flat acc
    else if c = '}' then fmtRun rest .closeB flat acc
    else fmtRun rest .lit flat (acc.push c)
  | c :: rest, .openB, flat, acc =>
    if c = '{' then fmtRun rest .lit flat (acc.push '{')
    else if c = '}' then .error .valueError
    else if badNameChar c then .error .valueError
    else fmtRun rest (.name [c]) flat acc
  | c :: rest, .closeB, flat, acc =>
    if c = '}' then fmtRun rest .lit flat (acc.push '}')
    else .error .valueError
  | c :: rest, .name nm, flat, acc =>
    if c = '}' then
      if nm.all Char.isDigit then .error .valueError
      else
        match flat.lookup (String.mk nm) with
        | some v => fmtRun rest .lit flat (acc ++ pyStr v)
        | none => .error .keyError
    else if badNameChar c then .error .valueError
    else fmtRun rest (.name (nm ++ [c])) flat acc

/-- `template.format(**flat)` over the modelled fragment. -/
def pyFormat (template : String) (flat : JObj) : Except PyErr String :=
  fmtRun template.data .lit flat ""

/-- Templates on which the modelled `str.format` cannot hit an uncaught
error: every brace is doubled or opens a simple non-positional placeholder. -/
def wfRun : List Char → FmtMode → Bool
  | [], .lit => true
  | [], _ => false
  | c :: rest, .lit =>
    if c = '{' then wfRun rest .openB
    else if c = '}' then wfRun rest .closeB
    else wfRun rest .lit
  | c :: rest, .openB =>
    if c = '{' then wfRun rest .lit
    else if c = '}' then false
    else if badNameChar c then false
    else wfRun rest (.name [c])
  | c :: rest, .closeB =>
    if c = '}' then wfRun rest .lit
    else false
  | c :: rest, .name nm =>
    if c = '}' then !(nm.all Char.isDigit) && wfRun rest .lit
    else if badNameChar c then false
    else wfRun rest (.name (nm ++ [c]))

def wellFormedTemplate (template : String) : Bool := wfRun template.data .lit

/-- The `except KeyError` fallback loop of `_apply_template`:
`result = result.replace("\x7b" + key + "\x7d", str(value))` over the flattened
items in order.  A placeholder whose field is absent is left untouched. -/
def fallbackSubst : String → JObj → String
  | t, .nil => t
  | t, .cons k v tl => fallbackSubst (strReplace t ("\x7b" ++ k ++ "\x7d") (pyStr v)) tl

/-- `_apply_template(data, template)`: try `format`, catch only `KeyError`. -/
def applyTemplate (data : JObj) (template : String) : Except PyErr String :=
  match pyFormat template (flattenData data) with
  | .ok s => .ok s
  | .error .keyError => .ok (fallbackSubst template (flattenData data))
  | .error .valueError => .error .valueError

/-! #### `_auto_summary` -/

/-- The main selection loop of `_auto_summary`: for each priority field
present with a truthy value append `str(value)`, skipping `id` when a `name`
or `title` key is present in the flattened data. -/
def summaryParts (priority : List String) (flat : JObj) : List String :=
  priority.foldl (fun parts f =>
    match flat.lookup f with
    | some v =>
      if truthy v then
        if f == "id" && (flat.hasKey "name" || flat.hasKey "title") then parts
        else parts ++ [pyStr v]
      else parts
    | none => parts) []

/-- The `if not parts` fallback loop of `_auto_summary`: up to 3 non-empty
string values in iteration order. -/
def fallbackParts : JObj → List String → List String
  | .nil, parts => parts
  | .cons _ v tl, parts =>
    fallbackParts tl
      (match v with
       | .str s => if !(s = "") && parts.length < 3 then parts ++ [s] else parts
       | _ => parts)

/-- `_auto_summary(data, entity_type)`. -/
def autoSummary (data : JObj) (entityType : String) : String :=
  let flat := flattenData data
  let priorityFields :=
    match ENTITY_KEY_FIELDS.lookup entityType with
    | some fs => fs.take 4
    | none => (HIGH_PRIORITY_FIELDS.filter (fun f => flat.hasKey f)).take 4
  let parts := summaryParts priorityFields flat
  let parts := if parts.isEmpty then fallbackParts flat [] else parts
  if parts.isEmpty then entityType ++ " entity" else joinSep ", " parts

/-- `generate_l1(data, entity_type, template)`: an empty template string is
falsy in Python, so only a non-empty template triggers `_apply_template`. -/
def generateL1 (data : JObj) (entityType : String) (template : Option String) :
    Except PyErr String :=
  match template with
  | some t => if t = "" then .ok (autoSummary data entityType) else applyTemplate data t
  | none => .ok (autoSummary data entityType)

/-! #### `_simplify_value`, `_get_nested`, `_extract_fields`, `_auto_key_facts` -/

/-- The `for v in value.values(): if isinstance(v, str): return v` scan. -/
def firstStringValue : JObj → Option JValue
  | .nil => none
  | .cons _ v tl =>
    match v with
    | .str s => some (.str s)
    | _ => firstStringValue tl

/-- `_simplify_value(value)`. -/
def simplifyValue (value : JValue) : JValue :=
  match value with
  | .obj fs =>
    match fs.lookup "name" with
    | some w => w
    | none =>
      match fs.lookup "id" with
      | some w => w
      | none =>
        match fs.lookup "value" with
        | some w => w
        | none =>
          match firstStringValue fs with
          | some w => w
          | none => .str (pyRepr (.obj fs))
  | .arr xs =>
    if xs.length = 0 then .arr xs
    else if xs.length ≤ 3 && xs.allScalar then .arr xs
    else .str ("[" ++ toString xs.length ++ " items]")
  | v => v

/-- `_get_nested(data, path)`: descend dot-separated segments through nested
dicts; any missing segment or non-dict intermediate yields Python `None`,
which is indistinguishable from a stored `None` value (`JValue.null`). -/
def getNestedGo : JValue → List String → JValue
  | v, [] => v
  | .obj fs, p :: ps =>
    (match fs.lookup p with
     | some w => getNestedGo w ps
     | none => .null)
  | _, _ :: _ => .null

def getNested (data : JObj) (path : String) : JValue :=
  getNestedGo (.obj data) (splitChar path '.')

/-- `_extract_fields(data, fields)`: dotted fields resolve through
`_get_nested`, are renamed with underscores and stored unsimplified (skipped
when the resolution is `None`); plain fields present in the data are stored
simplified. -/
def extractFields (data : JObj) (fields : List String) : JObj :=
  fields.foldl (fun result f =>
    if containsChar f '.' then
      match getNested data f with
      | .null => result
      | v => result.dinsert (strReplace f "." "_") v
    else
      match data.lookup f with
      | some v => result.dinsert f (simplifyValue v)
      | none => result) JObj.nil

/-- The medium-priority extension loop of `_auto_key_facts`, with its early
break once 6 fields are reached. -/
def addMediumFields : JObj → JObj → JObj
  | .nil, result => result
  | .cons k v tl, result =>
    if MEDIUM_PRIORITY_FIELDS.contains k && !result.hasKey k then
      let r := result.dinsert k (simplifyValue v)
      if 6 ≤ r.length then r else addMediumFields tl r
    else addMediumFields tl result

/-- The high-priority pass of the generic branch of `_auto_key_facts`. -/
def highPriorityPass : JObj → JObj → JObj
  | .nil, result => result
  | .cons k v tl, result =>
    if HIGH_PRIORITY_FIELDS.contains k then
      highPriorityPass tl (result.dinsert k (simplifyValue v))
    else highPriorityPass tl result

/-- `_auto_key_facts(data, entity_type)`. -/
def autoKeyFacts (data : JObj) (entityType : String) : JObj :=
  match ENTITY_KEY_FIELDS.lookup entityType with
  | some fields =>
    fields.foldl (fun result f =>
      match data.lookup f with
      | some v => result.dinsert f (simplifyValue v)
      | none =>
        if containsChar f '.' then
          match getNested data f with
          | .null => result
          | v => result.dinsert (strReplace f "." "_") v
        else result) JObj.nil
  | none =>
    let result := highPriorityPass data JObj.nil
    if result.length < 4 then addMediumFields data result else result

/-- `generate_l2(data, entity_type, key_fields)`: `if key_fields:` is a
truthiness test, so both `None` and an empty list select the auto path. -/
def generateL2 (data : JObj) (entityType : String) (keyFields : Option (List String)) : JObj :=
  match keyFields with
  | some fs => if fs.isEmpty then autoKeyFacts data entityType else extractFields data fs
  | none => autoKeyFacts data entityType

end SchemaBasedGenerator

namespace LLMAssistedGenerator

/-- `LLMAssistedGenerator.generate_l2` delegates to the schema-based
generator unconditionally ("L2 should be deterministic, so we use
schema-based"); the client and model fields play no role. -/
def generateL2 (client : Option JValue) (model : String) (data : JObj)
    (entityType : String) (keyFields : Option (List String)) : JObj :=
  SchemaBasedGenerator.generateL2 data entityType keyFields

end LLMAssistedGenerator

/-! ### Multi-level document (`document.py`, `ACPDocument`)

`generated_at` (a wall-clock timestamp) and `confidence` (a float never read
by any logic) are not modelled.  Resolution levels are the integers 0..3 of
the `ResolutionLevel` IntEnum. -/

open SchemaBasedGenerator in
structure ACPDocument : Type where
  entity : String
  id : String
  data : JObj
  l0 : String := "exists"
  l1 : String := ""
  l2 : JObj := .nil
  l3 : JObj := .nil
  tokenCounts : List (String × Nat) := []
  keyFields : List String := []
  summaryTemplate : Option String := none
  deriving DecidableEq

namespace ACPDocument

/-- `_calculate_tokens`: token counts of the four rendered levels, the dict
levels rendered through `json.dumps`. -/
def calculateTokens (d : ACPDocument) : List (String × Nat) :=
  [("L0", countTokens d.l0),
   ("L1", countTokens d.l1),
   ("L2", countTokens (jsonDumps (.obj d.l2))),
   ("L3", countTokens (jsonDumps (.obj d.l3)))]

/-- `generate_levels`: regenerate all four levels and the token counts.  The
only possible exception is an uncaught error escaping `_apply_template` for a
malformed summary template. -/
def generateLevels (doc : ACPDocument) : Except SchemaBasedGenerator.PyErr ACPDocument :=
  match SchemaBasedGenerator.generateL1 doc.data doc.entity doc.summaryTemplate with
  | .error e => .error e
  | .ok s1 =>
    let d := { doc with
      l0 := "exists",
      l1 := s1,
      l2 := SchemaBasedGenerator.generateL2 doc.data doc.entity (some doc.keyFields),
      l3 := doc.data }
    .ok { d with tokenCounts := d.calculateTokens }

/-- `from_dict(data, entity, id, key_fields, summary_template)` with the
default `auto_generate=True` (`key_fields or []` turns `None` into `[]`). -/
def fromDict (data : JObj) (entity idStr : String)
    (keyFields : Option (List String)) (summaryTemplate : Option String) :
    Except SchemaBasedGenerator.PyErr ACPDocument :=
  generateLevels
    { entity := entity, id := idStr, data := data,
      l0 := "exists", l1 := "", l2 := .nil, l3 := data,
      tokenCounts := [],
      keyFields := keyFields.getD [],
      summaryTemplate := summaryTemplate }

/-- `token_counts.get(key, float("inf")) <= budget`: a missing entry compares
as infinity, which no finite integer budget admits. -/
def fitsBudget (tc : List (String × Nat)) (key : String) (budget : Int) : Bool :=
  match tc.lookup key with
  | some n => (n : Int) ≤ budget
  | none => false

/-- `_get_by_budget(budget)`: levels checked from L3 down, L0 as the floor. -/
def getByBudget (d : ACPDocument) (budget : Int) : JValue :=
  if fitsBudget d.tokenCounts "L3" budget then .obj d.l3
  else if fitsBudget d.tokenCounts "L2" budget then .obj d.l2
  else if fitsBudget d.tokenCounts "L1" budget then .str d.l1
  else .str d.l0

/-- `_get_level(level)`: the integer is converted through
`ResolutionLevel(level)`, which raises for values outside 0..3. -/
def getLevel (d : ACPDocument) (level : Int) : Except SchemaBasedGenerator.PyErr JValue :=
  if level = 0 then .ok (.str d.l0)
  else if level = 1 then .ok (.str d.l1)
  else if level = 2 then .ok (.obj d.l2)
  else if level = 3 then .ok (.obj d.l3)
  else .error .valueError

/-- `get(level, token_budget)`: a supplied level takes the first branch;
otherwise a supplied budget; otherwise `ValueError`. -/
def get (d : ACPDocument) (level : Option Int) (tokenBudget : Option Int) :
    Except SchemaBasedGenerator.PyErr JValue :=
  match level with
  | some l => d.getLevel l
  | none =>
    match tokenBudget with
    | some b => .ok (d.getByBudget b)
    | none => .error .valueError

end ACPDocument

/-! ### Spec-side formulations and concrete inputs used by the claims -/

/-- Modelled from the spec: the fallback token-estimate formula as the spec
states it — floor(character_count / 4) plus floor(structural_punctuation / 2)
over the fixed punctuation set — for comparison with `countTokens` from the
source. -/
def specPunctSet : List Char :=
  ['{', '}', '[', ']', '(', ')', ':', ',', '"', '\'']

def specFallbackEstimate (text : String) : Nat :=
  text.data.length / 4 + (text.data.filter (fun c => specPunctSet.contains c)).length / 2

/-- Modelled from the spec: the declarative form of the `_auto_summary`
selection loop — a priority field contributes its string form exactly when it
is present with a truthy value and is not an `id` shadowed by a present
`name` or `title`. -/
def summarySelect (flat : JObj) (f : String) : Option String :=
  match flat.lookup f with
  | some v =>
    if truthy v && !(f == "id" && (flat.hasKey "name" || flat.hasKey "title"))
    then some (pyStr v) else none
  | none => none

/-- Substring test used to state "the summary contains ...". -/
def listInfixOf (pat : List Char) : List Char → Bool
  | [] => pat.isEmpty
  | c :: tl => pat.isPrefixOf (c :: tl) || listInfixOf pat tl

def containsSubstr (hay needle : String) : Bool := listInfixOf needle.data hay.data

/-- The concrete record of the spec's user scenario. -/
def aliceRecord : JObj :=
  .cons "id" (.str "u1") (.cons "name" (.str "Alice")
    (.cons "role" (.str "engineer") (.cons "email" (.str "a@x.com") .nil)))

/-- A one-field record whose generated summary is the 2-character string
"ab", used to refute token-count monotonicity. -/
def xRecord : JObj := .cons "x" (.str "ab") .nil

/-- A nested record for the dotted key-field scenario. -/
def authorRecord : JObj :=
  .cons "author" (.obj (.cons "info" (.obj (.cons "name" (.str "Bo") .nil)) .nil)) .nil

/-- A document with explicit token counts for budget-retrieval scenarios. -/
def budgetDoc : ACPDocument :=
  { entity := "user", id := "u", data := .nil,
    l0 := "exists", l1 := "s",
    l2 := .cons "name" (.str "A") .nil,
    l3 := .cons "name" (.str "A") (.cons "x" (.int 2) .nil),
    tokenCounts := [("L0", 1), ("L1", 2), ("L2", 5), ("L3", 9)],
    keyFields := [], summaryTemplate := none }

/-! ### Helper lemmas -/

/-- The JSON rendering of any dict is wrapped in braces, each of which is a
structural punctuation character, so its fallback token estimate is ≥ 1. -/
theorem one_le_countTokens_jsonObj (fs : JObj) :
    1 ≤ countTokens (jsonDumps (JValue.obj fs)) := by
  have hd : (jsonDumps (JValue.obj fs)).data = '{' :: ((jsonDumpsObj fs).data ++ ['}']) := by
    show ("\x7b" ++ jsonDumpsObj fs ++ "\x7d").data = _
    simp [String.data_append]
  have h2 : 2 ≤ (jsonDumps (JValue.obj fs)).data.countP (fun c => structuralPunct.contains c) := by
    rw [hd, List.countP_cons, List.countP_append]
    have hA : (structuralPunct.contains '{') = true := by decide
    have hB : List.countP (fun c => structuralPunct.contains c) ['}'] = 1 := by decide
    rw [hB]
    simp only [hA, if_true]
    omega
  show 1 ≤ (jsonDumps (JValue.obj fs)).length / 4
      + (jsonDumps (JValue.obj fs)).data.countP (fun c => structuralPunct.contains c) / 2
  omega

/-! ### Claim theorems -/

/-- C4: the fallback token estimator returns exactly
floor(character_count / 4) + floor(structural_punctuation_count / 2) over the
fixed punctuation set, a deterministic non-negative integer computed from the
text alone. -/
theorem countTokens_matches_spec_fallback (s : String) :
    countTokens s = specFallbackEstimate s := by
  unfold countTokens specFallbackEstimate
  rw [List.countP_eq_length_filter]
  rfl

/-- C5: the assisted generator's key-facts operation returns exactly the
schema-based generator's key-facts mapping for every record, entity type and
optional field list, whatever client and model are configured. -/
theorem llm_generateL2_eq_schema (client : Option JValue) (model : String)
    (data : JObj) (entityType : String) (keyFields : Option (List String)) :
    LLMAssistedGenerator.generateL2 client model data entityType keyFields
      = SchemaBasedGenerator.generateL2 data entityType keyFields := rfl

/-- C9: when both a level and a token budget are supplied, the level argument
takes the first branch of `get` and the budget is ignored entirely. -/
theorem get_level_takes_precedence (d : ACPDocument) (l : Int) (b : Int) :
    d.get (some l) (some b) = d.get (some l) none := rfl

/-- C1: for a document whose token counts are computed, budget retrieval
returns the stored rendering of the highest level among L3, L2, L1 whose
recorded count is ≤ the budget (equality fits, checked from L3 downward), and
the L0 rendering when none qualifies; L0's own count is never consulted and
the function is total. -/
theorem getByBudget_selects_highest_fitting_level
    (d : ACPDocument) (budget : Int) (c1 c2 c3 : Nat)
    (h1 : d.tokenCounts.lookup "L1" = some c1)
    (h2 : d.tokenCounts.lookup "L2" = some c2)
    (h3 : d.tokenCounts.lookup "L3" = some c3) :
      ((c3 : Int) ≤ budget ∧ d.getByBudget budget = .obj d.l3)
    ∨ (budget < (c3 : Int) ∧ (c2 : Int) ≤ budget ∧ d.getByBudget budget = .obj d.l2)
    ∨ (budget < (c3 : Int) ∧ budget < (c2 : Int) ∧ (c1 : Int) ≤ budget ∧
        d.getByBudget budget = .str d.l1)
    ∨ (budget < (c3 : Int) ∧ budget < (c2 : Int) ∧ budget < (c1 : Int) ∧
        d.getByBudget budget = .str d.l0) := by
  unfold ACPDocument.getByBudget ACPDocument.fitsBudget
  rw [h1, h2, h3]
  by_cases hc3 : (c3 : Int) ≤ budget
  · left
    exact ⟨hc3, by simp [hc3]⟩
  · by_cases hc2 : (c2 : Int) ≤ budget
    · right; left
      exact ⟨lt_of_not_le hc3, hc2, by simp [hc3, hc2]⟩
    · by_cases hc1 : (c1 : Int) ≤ budget
      · right; right; left
        exact ⟨lt_of_not_le hc3, lt_of_not_le hc2, hc1, by simp [hc3, hc2, hc1]⟩
      · right; right; right
        exact ⟨lt_of_not_le hc3, lt_of_not_le hc2, lt_of_not_le hc1,
          by simp [hc3, hc2, hc1]⟩

/-- Witness for C1: a document with counts L1 = 2, L2 = 5, L3 = 9 and
budget 6 lands on L2 (L3 does not fit, L2 does). -/
theorem getByBudget_selects_highest_fitting_level_witness :
    budgetDoc.tokenCounts.lookup "L1" = some 2
    ∧ budgetDoc.tokenCounts.lookup "L2" = some 5
    ∧ budgetDoc.tokenCounts.lookup "L3" = some 9
    ∧ ((((9 : Nat) : Int) ≤ 6 ∧ budgetDoc.getByBudget 6 = .obj budgetDoc.l3)
      ∨ ((6 : Int) < ((9 : Nat) : Int) ∧ ((5 : Nat) : Int) ≤ 6 ∧
          budgetDoc.getByBudget 6 = .obj budgetDoc.l2)
      ∨ ((6 : Int) < ((9 : Nat) : Int) ∧ (6 : Int) < ((5 : Nat) : Int) ∧
          ((2 : Nat) : Int) ≤ 6 ∧ budgetDoc.getByBudget 6 = .str budgetDoc.l1)
      ∨ ((6 : Int) < ((9 : Nat) : Int) ∧ (6 : Int) < ((5 : Nat) : Int) ∧
          (6 : Int) < ((2 : Nat) : Int) ∧ budgetDoc.getByBudget 6 = .str budgetDoc.l0)) := by
  exact ⟨rfl, rfl, rfl, getByBudget_selects_highest_fitting_level budgetDoc 6 2 5 9 rfl rfl rfl⟩

/-- C8: `get` raises exactly for API misuse — no selector at all, or an
integer level outside 0..3; any valid level returns the exact stored
rendering of that level, budget-only retrieval never raises, and document
generation from an arbitrary well-typed record (empty, missing fields,
unrecognized entity type) with no summary template never raises. -/
theorem get_raises_iff_misuse (d : ACPDocument) (ob : Option Int) (l : Int)
    (b : Int) (data : JObj) (entity idStr : String) (kf : Option (List String)) :
      d.get none none = .error .valueError
    ∧ d.get none (some b) = .ok (d.getByBudget b)
    ∧ d.get (some 0) ob = .ok (.str d.l0)
    ∧ d.get (some 1) ob = .ok (.str d.l1)
    ∧ d.get (some 2) ob = .ok (.obj d.l2)
    ∧ d.get (some 3) ob = .ok (.obj d.l3)
    ∧ (l ≠ 0 → l ≠ 1 → l ≠ 2 → l ≠ 3 → d.get (some l) ob = .error .valueError)
    ∧ (∃ doc, ACPDocument.fromDict data entity idStr kf none = .ok doc) := by
  refine ⟨rfl, rfl, rfl, rfl, rfl, rfl, ?_, ⟨_, rfl⟩⟩
  intro h0 h1 h2 h3
  show d.getLevel l = .error .valueError
  unfold ACPDocument.getLevel
  simp [h0, h1, h2, h3]

/-- Witness for C8: level 7 is rejected on a concrete document while the
valid levels return the stored renderings. -/
theorem get_raises_iff_misuse_witness :
    budgetDoc.get none none = .error .valueError
    ∧ budgetDoc.get (some 2) none = .ok (.obj budgetDoc.l2)
    ∧ budgetDoc.get (some 7) none = .error .valueError := by
  have h := get_raises_iff_misuse budgetDoc none 7 0 JObj.nil "widget" "w" none
  exact ⟨h.1, h.2.2.2.2.1, h.2.2.2.2.2.2.1 (by decide) (by decide) (by decide) (by decide)⟩

/-- C10: an explicit dotted key-field stores the `_get_nested` resolution
unsimplified under the dot-to-underscore renamed key, and is omitted when the
resolution is `None` (missing segment, non-dict intermediate, or a stored
`None`); a plain field present in the data is stored under its own name with
its value simplified, and omitted when absent. -/
theorem extractFields_dotted_and_plain (data : JObj) (f : String) :
      (containsChar f '.' = true → SchemaBasedGenerator.getNested data f = .null →
        SchemaBasedGenerator.extractFields data [f] = .nil)
    ∧ (containsChar f '.' = true → ∀ v : JValue,
        SchemaBasedGenerator.getNested data f = v → v ≠ .null →
        SchemaBasedGenerator.extractFields data [f]
          = .cons (strReplace f "." "_") v .nil)
    ∧ (containsChar f '.' = false → ∀ v : JValue, data.lookup f = some v →
        SchemaBasedGenerator.extractFields data [f]
          = .cons f (SchemaBasedGenerator.simplifyValue v) .nil)
    ∧ (containsChar f '.' = false → data.lookup f = none →
        SchemaBasedGenerator.extractFields data [f] = .nil) := by
  refine ⟨?_, ?_, ?_, ?_⟩
  · intro hdot hnull
    simp only [SchemaBasedGenerator.extractFields, List.foldl_cons, List.foldl_nil]
    simp [hdot, hnull]
  · intro hdot v hv hne
    simp only [SchemaBasedGenerator.extractFields, List.foldl_cons, List.foldl_nil]
    simp only [hdot, if_true]
    rw [hv]
    cases v
    case null => exact absurd rfl hne
    all_goals rfl
  · intro hdot v hv
    simp only [SchemaBasedGenerator.extractFields, List.foldl_cons, List.foldl_nil]
    simp [hdot, hv]
    rfl
  · intro hdot hnone
    simp only [SchemaBasedGenerator.extractFields, List.foldl_cons, List.foldl_nil]
    simp [hdot, hnone]

/-- Witness for C10: `author.info` resolves to a nested dict, which is stored
unsimplified under `author_info`. -/
theorem extractFields_dotted_and_plain_witness :
    containsChar "author.info" '.' = true
    ∧ SchemaBasedGenerator.getNested authorRecord "author.info"
        = .obj (.cons "name" (.str "Bo") .nil)
    ∧ SchemaBasedGenerator.extractFields authorRecord ["author.info"]
        = .cons "author_info" (.obj (.cons "name" (.str "Bo") .nil)) .nil := by
  refine ⟨by decide, rfl, ?_⟩
  exact (extractFields_dotted_and_plain authorRecord "author.info").2.1
    (by decide) _ rfl (by decide)

/-- C7: value simplification is idempotent on scalars (Python's
`isinstance(x, (str, int, float))`, which admits bools) and on sequences of
at most 3 scalar elements, and renders any longer or non-scalar-element
sequence as the literal string of the shape "[n items]". -/
theorem simplifyValue_idempotent_and_longlist (v : JValue) (xs : JList) :
      (isScalar v = true →
        SchemaBasedGenerator.simplifyValue (SchemaBasedGenerator.simplifyValue v)
          = SchemaBasedGenerator.simplifyValue v)
    ∧ (xs.length ≤ 3 → xs.allScalar = true →
        SchemaBasedGenerator.simplifyValue
            (SchemaBasedGenerator.simplifyValue (.arr xs))
          = SchemaBasedGenerator.simplifyValue (.arr xs))
    ∧ (3 < xs.length ∨ xs.allScalar = false →
        SchemaBasedGenerator.simplifyValue (.arr xs)
          = .str ("[" ++ toString xs.length ++ " items]")) := by
  refine ⟨?_, ?_, ?_⟩
  · intro h
    cases v
    all_goals try rfl
    all_goals simp [isScalar] at h
  · intro hlen hsc
    have heq : SchemaBasedGenerator.simplifyValue (.arr xs) = .arr xs := by
      by_cases h0 : xs.length = 0 <;>
        simp [SchemaBasedGenerator.simplifyValue, h0, hlen, hsc]
    rw [heq]
    exact heq
  · intro h
    cases xs with
    | nil =>
      rcases h with h | h
      · exact absurd h (by decide)
      · exact absurd h (by decide)
    | cons a tl =>
      have h0 : (JList.cons a tl).length ≠ 0 := by simp [JList.length]
      have hcond : (decide ((JList.cons a tl).length ≤ 3) && (JList.cons a tl).allScalar) = false := by
        rcases h with hgt | hsc
        · simp [Nat.not_le.mpr hgt]
        · simp [hsc]
      simp [SchemaBasedGenerator.simplifyValue, h0, hcond]

/-- Witness for C7: a two-element int list is a fixed point of
simplification, and a four-element int list renders as "[4 items]". -/
theorem simplifyValue_idempotent_and_longlist_witness :
    isScalar (.int 5) = true
    ∧ SchemaBasedGenerator.simplifyValue (SchemaBasedGenerator.simplifyValue (.int 5))
        = SchemaBasedGenerator.simplifyValue (.int 5)
    ∧ (JList.cons (.int 1) (.cons (.int 2) .nil)).length ≤ 3
    ∧ (JList.cons (.int 1) (.cons (.int 2) .nil)).allScalar = true
    ∧ SchemaBasedGenerator.simplifyValue
          (SchemaBasedGenerator.simplifyValue
            (.arr (.cons (.int 1) (.cons (.int 2) .nil))))
        = SchemaBasedGenerator.simplifyValue (.arr (.cons (.int 1) (.cons (.int 2) .nil)))
    ∧ (3 < (JList.cons (.int 1) (.cons (.int 2) (.cons (.int 3) (.cons (.int 4) .nil)))).length
        ∨ (JList.cons (.int 1) (.cons (.int 2) (.cons (.int 3) (.cons (.int 4) .nil)))).allScalar = false)
    ∧ SchemaBasedGenerator.simplifyValue
          (.arr (.cons (.int 1) (.cons (.int 2) (.cons (.int 3) (.cons (.int 4) .nil)))))
        = .str "[4 items]" := by
  refine ⟨by decide, ?_, by decide, by decide, ?_, Or.inl (by decide), ?_⟩
  · exact (simplifyValue_idempotent_and_longlist (.int 5) .nil).1 (by decide)
  · exact (simplifyValue_idempotent_and_longlist (.int 5)
      (.cons (.int 1) (.cons (.int 2) .nil))).2.1 (by decide) (by decide)
  · exact (simplifyValue_idempotent_and_longlist (.int 5)
      (.cons (.int 1) (.cons (.int 2) (.cons (.int 3) (.cons (.int 4) .nil))))).2.2
      (Or.inl (by decide))

/-- Counterexample to C2: for the one-field record with "x" mapped to "ab"
and entity "user", generation yields token counts L0 = 1, L1 = 0, L2 = 1,
L3 = 5, so token_count(L0) ≤ token_count(L1) fails. -/
theorem tokenCounts_not_monotone_counterexample :
    (ACPDocument.fromDict xRecord "user" "u1" none none).map ACPDocument.tokenCounts
      = .ok [("L0", 1), ("L1", 0), ("L2", 1), ("L3", 5)]
    ∧ ¬ ((1 : Nat) ≤ 0) := ⟨rfl, by decide⟩

/-- C2 (amended): after level generation, token_count(L0) ≤ token_count(L3)
for every record (L0 is the 1-token string "exists" and L3 is a JSON dict
rendering, always carrying its two braces); the full non-decreasing chain
L0 ≤ L1 ≤ L2 ≤ L3 does not hold for all records with at least one field. -/
theorem generated_tokenCounts_L0_le_L3
    (data : JObj) (entity idStr : String) (kf : Option (List String))
    (tmpl : Option String) (doc : ACPDocument)
    (h : ACPDocument.fromDict data entity idStr kf tmpl = .ok doc) :
    ∃ a b, doc.tokenCounts.lookup "L0" = some a
      ∧ doc.tokenCounts.lookup "L3" = some b ∧ a ≤ b := by
  unfold ACPDocument.fromDict ACPDocument.generateLevels at h
  cases hg : SchemaBasedGenerator.generateL1 data entity tmpl with
  | error e => rw [hg] at h; cases h
  | ok s1 =>
    rw [hg] at h
    simp only [Except.ok.injEq] at h
    subst h
    refine ⟨countTokens "exists", countTokens (jsonDumps (.obj data)), rfl, rfl, ?_⟩
    have h1 : countTokens "exists" = 1 := by decide
    rw [h1]
    exact one_le_countTokens_jsonObj data

/-- Witness for C2 (amended): applied to the counterexample record itself. -/
theorem generated_tokenCounts_L0_le_L3_witness :
    ∃ doc, ACPDocument.fromDict xRecord "user" "u1" none none = .ok doc
      ∧ ∃ a b, doc.tokenCounts.lookup "L0" = some a
        ∧ doc.tokenCounts.lookup "L3" = some b ∧ a ≤ b :=
  ⟨_, rfl, generated_tokenCounts_L0_le_L3 xRecord "user" "u1" none none _ rfl⟩

/-- The selection loop of `_auto_summary` agrees with its declarative
description, one priority field at a time. -/
theorem summaryParts_foldl_aux (flat : JObj) (priority : List String) :
    ∀ acc : List String,
      priority.foldl (fun parts f =>
        match flat.lookup f with
        | some v =>
          if truthy v then
            if f == "id" && (flat.hasKey "name" || flat.hasKey "title") then parts
            else parts ++ [pyStr v]
          else parts
        | none => parts) acc
      = acc ++ priority.filterMap (summarySelect flat) := by
  induction priority with
  | nil => intro acc; simp
  | cons f fs ih =>
    intro acc
    rw [List.foldl_cons, ih, List.filterMap_cons]
    cases hl : flat.lookup f with
    | none => simp [summarySelect, hl]
    | some v =>
      cases ht : truthy v <;>
        cases hskip : (f == "id" && (flat.hasKey "name" || flat.hasKey "title")) <;>
          simp [summarySelect, hl, ht, hskip]

/-- C6: in templateless summary generation each selected priority field
present with a truthy value contributes its string form, except that `id` is
skipped whenever a `name` or `title` key is present in the flattened record;
on the concrete user record the summary is "Alice, engineer", contains
"Alice" and does not contain "u1". -/
theorem autoSummary_priority_and_id_skip :
    (∀ (priority : List String) (flat : JObj),
      SchemaBasedGenerator.summaryParts priority flat
        = priority.filterMap (summarySelect flat))
  ∧ SchemaBasedGenerator.autoSummary aliceRecord "user" = "Alice, engineer"
  ∧ containsSubstr (SchemaBasedGenerator.autoSummary aliceRecord "user") "Alice" = true
  ∧ containsSubstr (SchemaBasedGenerator.autoSummary aliceRecord "user") "u1" = false := by
  refine ⟨?_, rfl, by decide, by decide⟩
  intro priority flat
  rw [SchemaBasedGenerator.summaryParts]
  exact (summaryParts_foldl_aux flat priority []).trans (List.nil_append _)

open SchemaBasedGenerator

/-- On templates accepted by `wfRun`, the modelled `str.format` scan can only
succeed or raise `KeyError`, never an uncaught error. -/
theorem fmtRun_wf_no_uncaught (cs : List Char) :
    ∀ (m : FmtMode) (flat : JObj) (acc : String),
    wfRun cs m = true → fmtRun cs m flat acc ≠ .error .valueError := by
  induction cs with
  | nil =>
    intro m flat acc h
    cases m <;> simp_all [wfRun, fmtRun]
  | cons c rest ih =>
    intro m flat acc h
    cases m with
    | lit =>
      rw [wfRun] at h
      rw [fmtRun]
      split_ifs at h ⊢ <;> exact ih _ _ _ h
    | openB =>
      rw [wfRun] at h
      rw [fmtRun]
      split_ifs at h ⊢ <;> first
        | exact ih _ _ _ h
        | simp_all
    | closeB =>
      rw [wfRun] at h
      rw [fmtRun]
      split_ifs at h ⊢ <;> first
        | exact ih _ _ _ h
        | simp_all
    | name nm =>
      rw [wfRun] at h
      rw [fmtRun]
      by_cases hc : c = '}'
      · simp only [hc, if_true, if_pos] at h ⊢
        simp only [Bool.and_eq_true, Bool.not_eq_true'] at h
        cases hl : flat.lookup (String.mk nm) with
        | some v => simp only [h.1, Bool.false_eq_true, if_false, hl]; exact ih _ _ _ h.2
        | none => simp [h.1, hl]
      · simp only [hc, if_false] at h ⊢
        by_cases hb : badNameChar c = true
        · simp [hb] at h
        · simp only [Bool.not_eq_true] at hb
          simp only [hb, Bool.false_eq_true, if_false] at h ⊢
          exact ih _ _ _ h

/-- Counterexample to C3: with record mapping "a" to "x" and template
"Hello {missing}", the absent placeholder is left as literal text in the
output, not rendered as empty text. -/
theorem template_absent_field_literal_counterexample :
    applyTemplate (JObj.cons "a" (.str "x") .nil) "Hello {missing}"
      = .ok "Hello {missing}"
    ∧ "Hello {missing}" ≠ "Hello " := ⟨rfl, by decide⟩

/-- C3 (amended): for every record and every template whose braces are
well-formed simple placeholders, summary generation with that template never
raises; when the template's `format` call hits a missing field it degrades to
field-by-field literal substitution, which leaves unmatched placeholders as
literal placeholder text (not empty text). -/
theorem applyTemplate_wellformed_never_raises (data : JObj) (t : String)
    (h : wellFormedTemplate t = true) :
    (∃ s, applyTemplate data t = .ok s)
    ∧ (pyFormat t (flattenData data) = .error .keyError →
        applyTemplate data t = .ok (fallbackSubst t (flattenData data))) := by
  have hv := fmtRun_wf_no_uncaught t.data .lit (flattenData data) "" h
  constructor
  · unfold applyTemplate
    cases hf : pyFormat t (flattenData data) with
    | ok s => exact ⟨s, rfl⟩
    | error e =>
      cases e with
      | keyError => exact ⟨_, rfl⟩
      | valueError => exact absurd hf hv
  · intro hk
    unfold applyTemplate
    rw [hk]

/-- Witness for C3 (amended): the spec's template scenario on the user
record. -/
theorem applyTemplate_wellformed_never_raises_witness :
    wellFormedTemplate "{name} ({role})" = true
    ∧ (∃ s, applyTemplate aliceRecord "{name} ({role})" = .ok s)
    ∧ (pyFormat "{name} ({role})" (flattenData aliceRecord) = .error .keyError →
        applyTemplate aliceRecord "{name} ({role})"
          = .ok (fallbackSubst "{name} ({role})" (flattenData aliceRecord))) := by
  have h := applyTemplate_wellformed_never_raises aliceRecord "{name} ({role})" (by decide)
  exact ⟨by decide, h.1, h.2⟩
